import Mathlib

/-!
NanoVM image loader (`vm/src/nvmfile.c`).

A shallow embedding of the routines of `nvmfile.c` that store and access the
NanoVM file image, followed by theorems about them.

Conventions of the embedding:

* the backend (EEPROM or program flash) is a total map from physical byte
  addresses to bytes; addresses are natural numbers and pointer arithmetic is
  assumed not to overflow the pointer type;
* multi-byte reads copy the bytes into a `u16_t` / `u32_t` object of a
  little-endian machine (the AVR target), so the byte at the lowest address is
  the least significant one;
* constants, macros and struct layouts that come from headers outside
  `nvmfile.c` are fields of `Config`;
* loops that C does not bound carry an explicit fuel argument and return
  `none` when the fuel is used up before the loop returns; the empty
  `for(;;)` of `nvmfile_store` is the outcome `hangs`.
-/

namespace NanoVM

/-! ## Configuration and state -/

/-- Compile-time parameters of `nvmfile.c`: the constants, macros and struct
layouts it takes from `nvmfile.h`, `vm.h`, `nvmfeatures.h`, `config.h` and
`types.h`. -/
structure Config where
  /-- Feature bits supported by this VM, marker included. -/
  NVM_MAGIC_FEAUTURE : Nat
  /-- Marker that every valid image carries in its feature word. -/
  NVMFILE_MAGIC : Nat
  /-- File format version this VM accepts. -/
  NVMFILE_VERSION : Nat
  /-- Address marker that `NVMFILE_ADDR` removes. -/
  NVMFILE_FLAG : Nat
  /-- Tag of a reference into the string table. -/
  NVM_TYPE_CONST : Nat
  /-- Width in bits of `nvm_ref_t`. -/
  refBits : Nat
  /-- Flag of a static initialiser in a method header. -/
  FLAG_CLINIT : Nat
  /-- Size in bytes of the `nvmfile` array. -/
  CODESIZE : Nat
  /-- Whether `NVM_USE_FLASH_PROGRAM` is defined. -/
  NVM_USE_FLASH_PROGRAM : Bool
  /-- Whether `DEBUG` is defined. -/
  DEBUG : Bool
  /-- Address of the `nvmfile` array. -/
  nvmfile : Nat
  /-- Offset of `magic_feature` in `nvm_header_t`. -/
  off_magic_feature : Nat
  /-- Offset of `version` in `nvm_header_t`. -/
  off_version : Nat
  /-- Offset of `methods` in `nvm_header_t`. -/
  off_methods : Nat
  /-- Offset of `main` in `nvm_header_t`. -/
  off_main : Nat
  /-- Offset of `constant_offset` in `nvm_header_t`. -/
  off_constant_offset : Nat
  /-- Offset of `string_offset` in `nvm_header_t`. -/
  off_string_offset : Nat
  /-- Offset of `method_offset` in `nvm_header_t`. -/
  off_method_offset : Nat
  /-- Offset of `static_fields` in `nvm_header_t`. -/
  off_static_fields : Nat
  /-- Offset of the `class_hdr` array in `nvm_header_t`. -/
  off_class_hdr : Nat
  /-- Size of `nvm_class_hdr_t`. -/
  sizeof_class_hdr : Nat
  /-- Offset of `super` in `nvm_class_hdr_t`. -/
  off_class_super : Nat
  /-- Offset of `fields` in `nvm_class_hdr_t`. -/
  off_class_fields : Nat
  /-- Size of `nvm_method_hdr_t`. -/
  sizeof_method_hdr : Nat
  /-- Offset of `id` in `nvm_method_hdr_t`. -/
  off_method_id : Nat
  /-- Offset of `flags` in `nvm_method_hdr_t`. -/
  off_method_flags : Nat

/-- Error codes passed to the error sink by `nvmfile.c`. -/
inductive Error where
  | ERROR_NVMFILE_MAGIC
  | ERROR_NVMFILE_VERSION
  deriving DecidableEq, Repr

/-- Mutable state seen by `nvmfile.c`: the backend bytes, the cached constant
count and the codes handed to the error sink so far. -/
structure State where
  /-- Byte stored at each physical address of the backend (taken modulo 256). -/
  mem : Nat → Nat
  /-- The global `nvmfile_constant_count`. -/
  nvmfile_constant_count : Nat
  /-- Codes reported through `error`, oldest first. -/
  errors : List Error
  /-- The EEPROM when the image lives in program flash
  (`NVM_USE_FLASH_PROGRAM`), where `mem` is the flash; not used otherwise. -/
  eeprom : Nat → Nat := fun _ => 0

/-- Modelled from the spec: the error sink `error` (error.c is not part of the
sources). It records the symbolic code and returns to the caller. -/
def error (s : State) (code : Error) : State :=
  { s with errors := s.errors ++ [code] }

/-! ## Backend access -/

/-- The bits of `x` that are not in `mask`, the C expression `x & ~mask`. -/
def clear_bits (x mask : Nat) : Nat := x ^^^ (x &&& mask)

/-- Modelled from the spec: the macro `NVMFILE_ADDR` (nvmfile.h is not part of
the sources), which removes the address marker. -/
def NVMFILE_ADDR (cfg : Config) (a : Nat) : Nat := clear_bits a cfg.NVMFILE_FLAG

/-- The byte stored at physical address `a`. -/
def byte_at (s : State) (a : Nat) : Nat := s.mem a % 256

/-- The `nvmfile_get_base` routine. -/
def nvmfile_get_base (cfg : Config) : Nat := cfg.nvmfile

/-- The `nvmfile_read` routine: the `len` bytes copied to `dst`. -/
def nvmfile_read (cfg : Config) (s : State) (src len : Nat) : List Nat :=
  (List.range len).map fun k => byte_at s (NVMFILE_ADDR cfg src + k)

/-- The `nvmfile_read08` routine. -/
def nvmfile_read08 (cfg : Config) (s : State) (addr : Nat) : Nat :=
  byte_at s (NVMFILE_ADDR cfg addr)

/-- The `nvmfile_read16` routine. -/
def nvmfile_read16 (cfg : Config) (s : State) (addr : Nat) : Nat :=
  byte_at s (NVMFILE_ADDR cfg addr) + 256 * byte_at s (NVMFILE_ADDR cfg addr + 1)

/-- The `nvmfile_read32` routine. -/
def nvmfile_read32 (cfg : Config) (s : State) (addr : Nat) : Nat :=
  byte_at s (NVMFILE_ADDR cfg addr) + 256 * byte_at s (NVMFILE_ADDR cfg addr + 1)
    + 65536 * byte_at s (NVMFILE_ADDR cfg addr + 2)
    + 16777216 * byte_at s (NVMFILE_ADDR cfg addr + 3)

/-- Backend after one byte has been written at physical address `a`. -/
def eeprom_write_byte (s : State) (a v : Nat) : State :=
  { s with mem := fun x => if x = a then v % 256 else s.mem x }

/-- The `nvmfile_write08` routine: nothing in the flash variant, one EEPROM
byte otherwise. -/
def nvmfile_write08 (cfg : Config) (s : State) (addr data : Nat) : State :=
  if cfg.NVM_USE_FLASH_PROGRAM then s
  else eeprom_write_byte s (NVMFILE_ADDR cfg addr) data

/-- How a routine that may loop forever ends: it returns in a state, or it
stays forever in a state. -/
inductive Outcome where
  | returned (s : State)
  | hangs (s : State)

/-- The state in which a routine returned or got stuck. -/
def Outcome.state : Outcome → State
  | Outcome.returned s => s
  | Outcome.hangs s => s

/-- Whether a routine returned to its caller. -/
def Outcome.has_returned : Outcome → Bool
  | Outcome.returned _ => true
  | Outcome.hangs _ => false

/-- EEPROM bytes after `eeprom_write_block` has copied the first `n` bytes of
`buffer` to physical address `a` on. -/
def eeprom_write_block (mem : Nat → Nat) (buffer : Nat → Nat) (a n : Nat) : Nat → Nat :=
  fun x => if a ≤ x ∧ x < a + n then buffer (x - a) % 256 else mem x

/-- The `nvmfile_store` routine; `buffer k` is the byte at `buffer + k`. With
`DEBUG` an oversized request ends in `for(;;)`; otherwise the block is written
to the EEPROM, which is the backend unless the image lives in flash. -/
def nvmfile_store (cfg : Config) (s : State) (index : Nat) (buffer : Nat → Nat)
    (size : Nat) : Outcome :=
  if cfg.DEBUG && decide (size > cfg.CODESIZE) then Outcome.hangs s
  else if cfg.NVM_USE_FLASH_PROGRAM then
    Outcome.returned
      { s with eeprom := eeprom_write_block s.eeprom buffer (cfg.nvmfile + index) size }
  else
    Outcome.returned
      { s with mem := eeprom_write_block s.mem buffer (cfg.nvmfile + index) size }

/-! ## Header validation -/

/-- The acceptance test of `nvmfile_init` on the feature word. -/
def feature_accepted (features supported magic : Nat) : Bool :=
  decide ((features &&& supported) = (features ||| magic))

/-- The `nvmfile_init` routine: the returned flag and the state afterwards. -/
def nvmfile_init (cfg : Config) (s : State) : Bool × State :=
  let features := nvmfile_read32 cfg s (cfg.nvmfile + cfg.off_magic_feature)
  if !feature_accepted features cfg.NVM_MAGIC_FEAUTURE cfg.NVMFILE_MAGIC then
    (false, error s Error.ERROR_NVMFILE_MAGIC)
  else if nvmfile_read08 cfg s (cfg.nvmfile + cfg.off_version) ≠ cfg.NVMFILE_VERSION then
    (false, error s Error.ERROR_NVMFILE_VERSION)
  else
    let t := (nvmfile_read16 cfg s (cfg.nvmfile + cfg.off_string_offset) + 65536
      - nvmfile_read16 cfg s (cfg.nvmfile + cfg.off_constant_offset)) % 65536
    (true, { s with nvmfile_constant_count := (t / 4) % 256 })

/-! ## Constants, strings and method headers -/

/-- The `nvmfile_get_method_hdr` routine: address of the header of a method. -/
def nvmfile_get_method_hdr (cfg : Config) (s : State) (index : Nat) : Nat :=
  cfg.nvmfile + nvmfile_read16 cfg s (cfg.nvmfile + cfg.off_method_offset)
    + index * cfg.sizeof_method_hdr

/-- The `nvmfile_get_constant` routine, for an index that fits `u08_t`. -/
def nvmfile_get_constant (cfg : Config) (s : State) (index : Nat) : Nat :=
  if index < s.nvmfile_constant_count then
    let addr := nvmfile_read16 cfg s (cfg.nvmfile + cfg.off_constant_offset)
    nvmfile_read32 cfg s (cfg.nvmfile + addr + 4 * index)
  else
    ((cfg.NVM_TYPE_CONST ||| (index - s.nvmfile_constant_count)) % 2 ^ cfg.refBits) % 2 ^ 32

/-- The `nvmfile_get_class_fields` routine. -/
def nvmfile_get_class_fields (cfg : Config) (s : State) (index : Nat) : Nat :=
  nvmfile_read08 cfg s
    (cfg.nvmfile + cfg.off_class_hdr + index * cfg.sizeof_class_hdr + cfg.off_class_fields)

/-- The `nvmfile_get_static_fields` routine. -/
def nvmfile_get_static_fields (cfg : Config) (s : State) : Nat :=
  nvmfile_read08 cfg s (cfg.nvmfile + cfg.off_static_fields)

/-! ## Program start -/

/-- The `for` loop of `nvmfile_call_main` from counter value `i` on, `calls`
being the arguments of the `vm_run` calls made so far: the arguments of all
calls when the loop exits, or `none` when `fuel` evaluations of the loop
condition do not reach the exit. The counter is a `u08_t`. -/
def call_main_loop (cfg : Config) (s : State) : Nat → Nat → List Nat → Option (List Nat)
  | 0, _, _ => none
  | fuel + 1, i, calls =>
    if i < nvmfile_read08 cfg s (cfg.nvmfile + cfg.off_methods) then
      if nvmfile_read08 cfg s (nvmfile_get_method_hdr cfg s i + cfg.off_method_flags)
          &&& cfg.FLAG_CLINIT ≠ 0 then
        call_main_loop cfg s fuel ((i + 1) % 256) (calls ++ [i])
      else call_main_loop cfg s fuel ((i + 1) % 256) calls
    else some calls

/-- The `nvmfile_call_main` routine with `vm_run` an external call that leaves
the image alone: the arguments of its `vm_run` calls, in order. -/
def nvmfile_call_main (cfg : Config) (s : State) (fuel : Nat) : Option (List Nat) :=
  match call_main_loop cfg s fuel 0 [] with
  | none => none
  | some calls => some (calls ++ [nvmfile_read16 cfg s (cfg.nvmfile + cfg.off_main)])

/-! ## Method lookup (`NVM_USE_INHERITANCE`) -/

/-- The `id` member of the method header with table index `i`, as
`nvmfile_get_method_by_fixed_class_and_id` loads it into `mhdr`. -/
def method_hdr_id (cfg : Config) (s : State) (i : Nat) : Nat :=
  let mhdr := nvmfile_read cfg s (nvmfile_get_method_hdr cfg s i) cfg.sizeof_method_hdr
  mhdr.getD cfg.off_method_id 0 + 256 * mhdr.getD (cfg.off_method_id + 1) 0

/-- The `for` loop of `nvmfile_get_method_by_fixed_class_and_id` from counter
value `i` on; `none` when `fuel` evaluations of the loop condition do not
reach a `return`. The counter is a `u08_t`. -/
def fixed_class_loop (cfg : Config) (s : State) (cls id : Nat) : Nat → Nat → Option Nat
  | 0, _ => none
  | fuel + 1, i =>
    if i < nvmfile_read08 cfg s (cfg.nvmfile + cfg.off_methods) then
      if method_hdr_id cfg s i >>> 8 = cls ∧ method_hdr_id cfg s i &&& 0xff = id then some i
      else fixed_class_loop cfg s cls id fuel ((i + 1) % 256)
    else some 0xff

/-- The `nvmfile_get_method_by_fixed_class_and_id` routine. -/
def nvmfile_get_method_by_fixed_class_and_id (cfg : Config) (s : State) (cls id : Nat)
    (fuel : Nat) : Option Nat :=
  fixed_class_loop cfg s cls id fuel 0

/-- The superclass index stored in the class header of `cls`. -/
def class_super (cfg : Config) (s : State) (cls : Nat) : Nat :=
  nvmfile_read08 cfg s
    (cfg.nvmfile + cfg.off_class_hdr + cls * cfg.sizeof_class_hdr + cfg.off_class_super)

/-- The `nvmfile_get_method_by_class_and_id` routine: `fuel` bounds the number
of passes through its `for(;;)` loop, each inner scan gets 256 condition
evaluations (enough for any `u08_t` method count). -/
def nvmfile_get_method_by_class_and_id (cfg : Config) (s : State) :
    Nat → Nat → Nat → Option Nat
  | 0, _, _ => none
  | fuel + 1, cls, id =>
    match nvmfile_get_method_by_fixed_class_and_id cfg s cls id 256 with
    | none => none
    | some mref =>
      if mref ≠ 0xff then some mref
      else nvmfile_get_method_by_class_and_id cfg s fuel (class_super cfg s cls) id

/-! ## Notions used to state the properties -/

/-- The class reached from `cls` after `n` superclass links. -/
def super_chain (cfg : Config) (s : State) (cls : Nat) : Nat → Nat
  | 0 => cls
  | n + 1 => class_super cfg s (super_chain cfg s cls n)

/-- Backend in which the four bytes from physical address `a` on hold the
32-bit word `w`, least significant byte first. -/
def poke32 (s : State) (a w : Nat) : State :=
  eeprom_write_byte (eeprom_write_byte (eeprom_write_byte (eeprom_write_byte s
    a w) (a + 1) (w / 256)) (a + 2) (w / 65536)) (a + 3) (w / 16777216)

/-- The image in which bit `b` of the feature word of the header is flipped. -/
def flip_feature_bit (cfg : Config) (s : State) (b : Nat) : State :=
  poke32 s (NVMFILE_ADDR cfg (cfg.nvmfile + cfg.off_magic_feature))
    (nvmfile_read32 cfg s (cfg.nvmfile + cfg.off_magic_feature) ^^^ 2 ^ b)

/-- Backend holding `bytes` from address `base` on and zero elsewhere. -/
def image_at (base : Nat) (bytes : List Nat) : Nat → Nat :=
  fun a => if base ≤ a then bytes.getD (a - base) 0 else 0

/-! ## A sample configuration and sample images -/

/-- Modelled from the spec: the header layout of the image binary layout
section (feature word at 0, version at 4, method, string and constant offsets
at 5, 7, 9, static field count at 11, method count at 12, main index at 13,
class headers from 15 on, each a field count followed by a superclass index;
method headers start with the packed id followed by the flags). The values of
the constants are samples: 16-bit references with the string tag in the two
top bits, address marker `0x8000`. -/
def sample_config : Config :=
  { NVM_MAGIC_FEAUTURE := 0xBE00003F
    NVMFILE_MAGIC := 0xBE000000
    NVMFILE_VERSION := 2
    NVMFILE_FLAG := 0x8000
    NVM_TYPE_CONST := 0xC000
    refBits := 16
    FLAG_CLINIT := 1
    CODESIZE := 512
    NVM_USE_FLASH_PROGRAM := false
    DEBUG := false
    nvmfile := 64
    off_magic_feature := 0
    off_version := 4
    off_method_offset := 5
    off_string_offset := 7
    off_constant_offset := 9
    off_static_fields := 11
    off_methods := 12
    off_main := 13
    off_class_hdr := 15
    sizeof_class_hdr := 2
    off_class_fields := 0
    off_class_super := 1
    sizeof_method_hdr := 8
    off_method_id := 0
    off_method_flags := 2 }

/-- A sample image: classes root (0), mid (1, super 0) and leaf (2, super 1);
two constants `0x12345678` and `0xCAFEBABE`; two strings; six methods, static
initialisers at table indices 0, 2 and 4, main at 5, and method id 7 defined
by root only (table index 1). -/
def sample_bytes : List Nat :=
  [ 0x01, 0x00, 0x00, 0xBE,             -- feature word 0xBE000001
    0x02,                               -- version
    0x26, 0x00,                         -- method table at 38
    0x1D, 0x00,                         -- string table at 29
    0x15, 0x00,                         -- constant pool at 21
    0x00,                               -- static fields
    0x06,                               -- methods
    0x05, 0x00,                         -- main
    0x00, 0x00, 0x00, 0x00, 0x00, 0x01, -- class headers: root, mid, leaf
    0x78, 0x56, 0x34, 0x12,             -- constant 0
    0xBE, 0xBA, 0xFE, 0xCA,             -- constant 1
    0x04, 0x00, 0x07, 0x00,             -- string offsets
    0x61, 0x62, 0x00, 0x63, 0x00,       -- string bytes
    0x01, 0x00, 0x01, 0, 0, 0, 0, 0,    -- method 0: class 0, id 1, clinit
    0x07, 0x00, 0x00, 0, 0, 0, 0, 0,    -- method 1: class 0, id 7
    0x01, 0x01, 0x01, 0, 0, 0, 0, 0,    -- method 2: class 1, id 1, clinit
    0x03, 0x01, 0x00, 0, 0, 0, 0, 0,    -- method 3: class 1, id 3
    0x01, 0x02, 0x01, 0, 0, 0, 0, 0,    -- method 4: class 2, id 1, clinit
    0x00, 0x02, 0x00, 0, 0, 0, 0, 0 ]   -- method 5: class 2, id 0, main

/-- The sample image installed at the address of `nvmfile`, before
`nvmfile_init` has run. -/
def sample_state : State :=
  { mem := image_at 64 sample_bytes, nvmfile_constant_count := 0, errors := [] }

/-- The sample image after a successful `nvmfile_init`: two constants. -/
def sample_ready : State :=
  { mem := image_at 64 sample_bytes, nvmfile_constant_count := 2, errors := [] }

/-- A header whose constant pool is 1024 bytes long: constant pool at 21,
string table at 1045. -/
def wide_pool_bytes : List Nat :=
  [ 0x01, 0x00, 0x00, 0xBE, 0x02, 0x15, 0x08, 0x15, 0x04, 0x15, 0x00,
    0x00, 0x00, 0x00, 0x00 ]

/-- The wide-pool header installed at the address of `nvmfile`. -/
def wide_pool_state : State :=
  { mem := image_at 64 wide_pool_bytes, nvmfile_constant_count := 7, errors := [] }

/-- The sample configuration with the image in program flash. -/
def sample_config_flash : Config :=
  { sample_config with NVM_USE_FLASH_PROGRAM := true }

/-- The sample configuration built with `DEBUG`. -/
def sample_config_debug : Config :=
  { sample_config with DEBUG := true }

/-- A header whose string table lies before its constant pool: constant pool
at 29, string table at 21. -/
def swapped_pool_bytes : List Nat :=
  [ 0x01, 0x00, 0x00, 0xBE, 0x02, 0x26, 0x00, 0x15, 0x00, 0x1D, 0x00,
    0x00, 0x00, 0x00, 0x00 ]

/-- The swapped-pool header installed at the address of `nvmfile`. -/
def swapped_pool_state : State :=
  { mem := image_at 64 swapped_pool_bytes, nvmfile_constant_count := 7, errors := [] }

/-- A buffer filled with the byte `0xAA`. -/
def filled_buffer : Nat → Nat := fun _ => 0xAA

end NanoVM

namespace NanoVM

/-! ## Auxiliary facts -/

theorem byte_at_lt (s : State) (a : Nat) : byte_at s a < 256 :=
  Nat.mod_lt _ (by decide)

theorem nvmfile_read08_lt (cfg : Config) (s : State) (a : Nat) :
    nvmfile_read08 cfg s a < 256 :=
  byte_at_lt s _

theorem nvmfile_read16_lt (cfg : Config) (s : State) (a : Nat) :
    nvmfile_read16 cfg s a < 65536 := by
  have h0 := byte_at_lt s (NVMFILE_ADDR cfg a)
  have h1 := byte_at_lt s (NVMFILE_ADDR cfg a + 1)
  unfold nvmfile_read16
  omega

theorem nvmfile_read32_lt (cfg : Config) (s : State) (a : Nat) :
    nvmfile_read32 cfg s a < 2 ^ 32 := by
  have h0 := byte_at_lt s (NVMFILE_ADDR cfg a)
  have h1 := byte_at_lt s (NVMFILE_ADDR cfg a + 1)
  have h2 := byte_at_lt s (NVMFILE_ADDR cfg a + 2)
  have h3 := byte_at_lt s (NVMFILE_ADDR cfg a + 3)
  unfold nvmfile_read32
  omega

/-- The acceptance test holds exactly when the marker is contained in the
feature word and the feature word is contained in the supported set. -/
theorem feature_accepted_bits (f S M : Nat) :
    feature_accepted f S M = true ↔
      (∀ i, M.testBit i = true → f.testBit i = true) ∧
      (∀ i, f.testBit i = true → S.testBit i = true) := by
  unfold feature_accepted
  rw [decide_eq_true_iff]
  constructor
  · intro h
    have hb : ∀ i, (f.testBit i && S.testBit i) = (f.testBit i || M.testBit i) := by
      intro i
      rw [← Nat.testBit_and, ← Nat.testBit_or, h]
    constructor
    · intro i hM
      have := hb i
      rw [hM] at this
      cases hf : f.testBit i <;> simp [hf] at this ⊢
    · intro i hf
      have := hb i
      rw [hf] at this
      simpa using this
  · rintro ⟨hM, hS⟩
    apply Nat.eq_of_testBit_eq
    intro i
    rw [Nat.testBit_and, Nat.testBit_or]
    cases hf : f.testBit i
    · cases hm : M.testBit i
      · rfl
      · rw [hM i hm] at hf
        cases hf
    · rw [hS i hf]
      rfl

/-- The flag returned by `nvmfile_init`. -/
theorem nvmfile_init_fst (cfg : Config) (s : State) :
    (nvmfile_init cfg s).1 =
      (feature_accepted (nvmfile_read32 cfg s (cfg.nvmfile + cfg.off_magic_feature))
          cfg.NVM_MAGIC_FEAUTURE cfg.NVMFILE_MAGIC
        && decide (nvmfile_read08 cfg s (cfg.nvmfile + cfg.off_version) = cfg.NVMFILE_VERSION)) := by
  unfold nvmfile_init
  by_cases hf : feature_accepted (nvmfile_read32 cfg s (cfg.nvmfile + cfg.off_magic_feature))
      cfg.NVM_MAGIC_FEAUTURE cfg.NVMFILE_MAGIC = true
  · by_cases hv : nvmfile_read08 cfg s (cfg.nvmfile + cfg.off_version) = cfg.NVMFILE_VERSION
    · simp [hf, hv]
    · simp [hf, hv]
  · simp [hf]

/-- What `nvmfile_init` does when the feature test fails. -/
theorem nvmfile_init_magic (cfg : Config) (s : State)
    (hf : feature_accepted (nvmfile_read32 cfg s (cfg.nvmfile + cfg.off_magic_feature))
      cfg.NVM_MAGIC_FEAUTURE cfg.NVMFILE_MAGIC = false) :
    nvmfile_init cfg s = (false, error s Error.ERROR_NVMFILE_MAGIC) := by
  unfold nvmfile_init
  simp [hf]

/-- What `nvmfile_init` does when the feature test passes and the version
differs. -/
theorem nvmfile_init_version (cfg : Config) (s : State)
    (hf : feature_accepted (nvmfile_read32 cfg s (cfg.nvmfile + cfg.off_magic_feature))
      cfg.NVM_MAGIC_FEAUTURE cfg.NVMFILE_MAGIC = true)
    (hv : nvmfile_read08 cfg s (cfg.nvmfile + cfg.off_version) ≠ cfg.NVMFILE_VERSION) :
    nvmfile_init cfg s = (false, error s Error.ERROR_NVMFILE_VERSION) := by
  unfold nvmfile_init
  simp [hf, hv]

/-- What `nvmfile_init` does when both tests pass. -/
theorem nvmfile_init_ok (cfg : Config) (s : State)
    (hf : feature_accepted (nvmfile_read32 cfg s (cfg.nvmfile + cfg.off_magic_feature))
      cfg.NVM_MAGIC_FEAUTURE cfg.NVMFILE_MAGIC = true)
    (hv : nvmfile_read08 cfg s (cfg.nvmfile + cfg.off_version) = cfg.NVMFILE_VERSION) :
    nvmfile_init cfg s =
      (true, { s with nvmfile_constant_count :=
        ((nvmfile_read16 cfg s (cfg.nvmfile + cfg.off_string_offset) + 65536
          - nvmfile_read16 cfg s (cfg.nvmfile + cfg.off_constant_offset)) % 65536 / 4) % 256 }) := by
  unfold nvmfile_init
  simp [hf, hv]

/-- An accepted image passes both tests. -/
theorem nvmfile_init_accepts (cfg : Config) (s : State) (h : (nvmfile_init cfg s).1 = true) :
    feature_accepted (nvmfile_read32 cfg s (cfg.nvmfile + cfg.off_magic_feature))
        cfg.NVM_MAGIC_FEAUTURE cfg.NVMFILE_MAGIC = true ∧
      nvmfile_read08 cfg s (cfg.nvmfile + cfg.off_version) = cfg.NVMFILE_VERSION := by
  rw [nvmfile_init_fst, Bool.and_eq_true, decide_eq_true_iff] at h
  exact h

/-! ## C1: outcome of `nvmfile_init` -/

/-- C1: `nvmfile_init` returns TRUE exactly when the feature word `f` of the
header satisfies `(f & NVM_MAGIC_FEAUTURE) == (f | NVMFILE_MAGIC)` and the
version byte equals `NVMFILE_VERSION`; when the feature relation fails it
reports `ERROR_NVMFILE_MAGIC` and returns FALSE whatever the version byte is,
and when the relation holds but the version differs it reports
`ERROR_NVMFILE_VERSION` and returns FALSE. -/
theorem C1_nvmfile_init_outcome (cfg : Config) (s : State) :
    ((nvmfile_init cfg s).1 = true ↔
      (nvmfile_read32 cfg s (cfg.nvmfile + cfg.off_magic_feature) &&& cfg.NVM_MAGIC_FEAUTURE
          = nvmfile_read32 cfg s (cfg.nvmfile + cfg.off_magic_feature) ||| cfg.NVMFILE_MAGIC
        ∧ nvmfile_read08 cfg s (cfg.nvmfile + cfg.off_version) = cfg.NVMFILE_VERSION)) ∧
    (nvmfile_read32 cfg s (cfg.nvmfile + cfg.off_magic_feature) &&& cfg.NVM_MAGIC_FEAUTURE
          ≠ nvmfile_read32 cfg s (cfg.nvmfile + cfg.off_magic_feature) ||| cfg.NVMFILE_MAGIC →
      (nvmfile_init cfg s).1 = false ∧
      (nvmfile_init cfg s).2.errors = s.errors ++ [Error.ERROR_NVMFILE_MAGIC]) ∧
    (nvmfile_read32 cfg s (cfg.nvmfile + cfg.off_magic_feature) &&& cfg.NVM_MAGIC_FEAUTURE
          = nvmfile_read32 cfg s (cfg.nvmfile + cfg.off_magic_feature) ||| cfg.NVMFILE_MAGIC →
      nvmfile_read08 cfg s (cfg.nvmfile + cfg.off_version) ≠ cfg.NVMFILE_VERSION →
      (nvmfile_init cfg s).1 = false ∧
      (nvmfile_init cfg s).2.errors = s.errors ++ [Error.ERROR_NVMFILE_VERSION]) := by
  refine ⟨?_, ?_, ?_⟩
  · rw [nvmfile_init_fst, Bool.and_eq_true, decide_eq_true_iff]
    unfold feature_accepted
    rw [decide_eq_true_iff]
  · intro hne
    have hf : feature_accepted (nvmfile_read32 cfg s (cfg.nvmfile + cfg.off_magic_feature))
        cfg.NVM_MAGIC_FEAUTURE cfg.NVMFILE_MAGIC = false := by
      unfold feature_accepted
      exact decide_eq_false hne
    rw [nvmfile_init_magic cfg s hf]
    exact ⟨rfl, rfl⟩
  · intro heq hv
    have hf : feature_accepted (nvmfile_read32 cfg s (cfg.nvmfile + cfg.off_magic_feature))
        cfg.NVM_MAGIC_FEAUTURE cfg.NVMFILE_MAGIC = true := by
      unfold feature_accepted
      exact decide_eq_true heq
    rw [nvmfile_init_version cfg s hf hv]
    exact ⟨rfl, rfl⟩

/-! ## C2: meaning of the feature test -/

/-- C2: the acceptance test `(f & S) == (f | M)` of `nvmfile_init` holds if and
only if every bit of the marker `M` is set in the feature word `f` and every
bit set in `f` is also set in the supported-feature mask `S`. -/
theorem C2_feature_test_meaning (f S M : Nat) :
    feature_accepted f S M = true ↔
      (∀ i, M.testBit i = true → f.testBit i = true) ∧
      (∀ i, f.testBit i = true → S.testBit i = true) :=
  feature_accepted_bits f S M

/-! ## C3: corrupting a marker bit -/

/-- Reading back the word written by `poke32`. -/
theorem nvmfile_read32_poke32 (cfg : Config) (s : State) (addr w : Nat) (hw : w < 2 ^ 32) :
    nvmfile_read32 cfg (poke32 s (NVMFILE_ADDR cfg addr) w) addr = w := by
  simp only [nvmfile_read32, poke32, eeprom_write_byte, byte_at]
  have e0 : ¬ (NVMFILE_ADDR cfg addr = NVMFILE_ADDR cfg addr + 3) := by omega
  have e1 : ¬ (NVMFILE_ADDR cfg addr = NVMFILE_ADDR cfg addr + 2) := by omega
  have e2 : ¬ (NVMFILE_ADDR cfg addr = NVMFILE_ADDR cfg addr + 1) := by omega
  have e3 : ¬ (NVMFILE_ADDR cfg addr + 1 = NVMFILE_ADDR cfg addr + 3) := by omega
  have e4 : ¬ (NVMFILE_ADDR cfg addr + 1 = NVMFILE_ADDR cfg addr + 2) := by omega
  have e5 : ¬ (NVMFILE_ADDR cfg addr + 2 = NVMFILE_ADDR cfg addr + 3) := by omega
  simp only [e0, e1, e2, e3, e4, e5, if_true, if_false]
  omega

/-- A bit that is set in a number below `2 ^ n` has a position below `n`. -/
theorem testBit_pos_lt (x n b : Nat) (hx : x < 2 ^ n) (hb : x.testBit b = true) : b < n := by
  by_contra hge
  have hle : 2 ^ n ≤ 2 ^ b := Nat.pow_le_pow_right (by decide) (Nat.le_of_not_lt hge)
  have := Nat.testBit_lt_two_pow (Nat.lt_of_lt_of_le hx hle)
  rw [this] at hb
  cases hb

/-- C3: when `nvmfile_init` accepts an image and bit `b` is set in the marker
`NVMFILE_MAGIC`, the image with that single bit of the feature word flipped is
rejected: `nvmfile_init` returns FALSE and reports `ERROR_NVMFILE_MAGIC`. -/
theorem C3_marker_bit_flip_rejected (cfg : Config) (s : State) (b : Nat)
    (hacc : (nvmfile_init cfg s).1 = true)
    (hb : cfg.NVMFILE_MAGIC.testBit b = true) :
    (nvmfile_init cfg (flip_feature_bit cfg s b)).1 = false ∧
    (nvmfile_init cfg (flip_feature_bit cfg s b)).2.errors
      = s.errors ++ [Error.ERROR_NVMFILE_MAGIC] := by
  obtain ⟨hf, _⟩ := nvmfile_init_accepts cfg s hacc
  have hfb := ((feature_accepted_bits _ _ _).1 hf).1 b hb
  have hlt := nvmfile_read32_lt cfg s (cfg.nvmfile + cfg.off_magic_feature)
  have hb32 : b < 32 := testBit_pos_lt _ _ _ hlt hfb
  have hw : nvmfile_read32 cfg s (cfg.nvmfile + cfg.off_magic_feature) ^^^ 2 ^ b < 2 ^ 32 :=
    Nat.xor_lt_two_pow hlt (Nat.pow_lt_pow_right (by decide) hb32)
  have hread : nvmfile_read32 cfg (flip_feature_bit cfg s b) (cfg.nvmfile + cfg.off_magic_feature)
      = nvmfile_read32 cfg s (cfg.nvmfile + cfg.off_magic_feature) ^^^ 2 ^ b :=
    nvmfile_read32_poke32 cfg s _ _ hw
  have hrej : feature_accepted
      (nvmfile_read32 cfg (flip_feature_bit cfg s b) (cfg.nvmfile + cfg.off_magic_feature))
      cfg.NVM_MAGIC_FEAUTURE cfg.NVMFILE_MAGIC = false := by
    rw [hread]
    cases hacc2 : feature_accepted
        (nvmfile_read32 cfg s (cfg.nvmfile + cfg.off_magic_feature) ^^^ 2 ^ b)
        cfg.NVM_MAGIC_FEAUTURE cfg.NVMFILE_MAGIC
    · rfl
    · have hbit := ((feature_accepted_bits _ _ _).1 hacc2).1 b hb
      rw [Nat.testBit_xor, hfb, Nat.testBit_two_pow_self] at hbit
      cases hbit
  rw [nvmfile_init_magic cfg _ hrej]
  exact ⟨rfl, rfl⟩

/-- Witness for C3: the sample image is accepted, bit 25 belongs to the marker
`0xBE000000`, and the image with bit 25 of the feature word flipped is
rejected with `ERROR_NVMFILE_MAGIC`. -/
theorem C3_marker_bit_flip_rejected_witness :
    (nvmfile_init sample_config sample_state).1 = true ∧
    sample_config.NVMFILE_MAGIC.testBit 25 = true ∧
    (nvmfile_init sample_config (flip_feature_bit sample_config sample_state 25)).1 = false ∧
    (nvmfile_init sample_config (flip_feature_bit sample_config sample_state 25)).2.errors
      = sample_state.errors ++ [Error.ERROR_NVMFILE_MAGIC] :=
  ⟨by decide, by decide,
    C3_marker_bit_flip_rejected sample_config sample_state 25 (by decide) (by decide)⟩

/-! ## C4: the cached constant count -/

/-- The count cached by an accepting `nvmfile_init`. -/
theorem nvmfile_init_count (cfg : Config) (s : State) (hacc : (nvmfile_init cfg s).1 = true) :
    (nvmfile_init cfg s).2.nvmfile_constant_count =
      ((nvmfile_read16 cfg s (cfg.nvmfile + cfg.off_string_offset) + 65536
        - nvmfile_read16 cfg s (cfg.nvmfile + cfg.off_constant_offset)) % 65536 / 4) % 256 := by
  obtain ⟨hf, hv⟩ := nvmfile_init_accepts cfg s hacc
  rw [nvmfile_init_ok cfg s hf hv]

/-- C4 (as the code has it): for an accepted header with
`constant_offset <= string_offset`, the cached count is
`(string_offset - constant_offset) / 4` truncated to the 8-bit
`nvmfile_constant_count`, that is taken modulo 256; it is the plain quotient
whenever `string_offset - constant_offset < 1024`. -/
theorem C4_constant_count_truncated (cfg : Config) (s : State)
    (hacc : (nvmfile_init cfg s).1 = true)
    (hle : nvmfile_read16 cfg s (cfg.nvmfile + cfg.off_constant_offset)
      ≤ nvmfile_read16 cfg s (cfg.nvmfile + cfg.off_string_offset)) :
    (nvmfile_init cfg s).2.nvmfile_constant_count =
      ((nvmfile_read16 cfg s (cfg.nvmfile + cfg.off_string_offset)
        - nvmfile_read16 cfg s (cfg.nvmfile + cfg.off_constant_offset)) / 4) % 256 ∧
    (nvmfile_read16 cfg s (cfg.nvmfile + cfg.off_string_offset)
        - nvmfile_read16 cfg s (cfg.nvmfile + cfg.off_constant_offset) < 1024 →
      (nvmfile_init cfg s).2.nvmfile_constant_count =
        (nvmfile_read16 cfg s (cfg.nvmfile + cfg.off_string_offset)
          - nvmfile_read16 cfg s (cfg.nvmfile + cfg.off_constant_offset)) / 4) := by
  rw [nvmfile_init_count cfg s hacc]
  have hs := nvmfile_read16_lt cfg s (cfg.nvmfile + cfg.off_string_offset)
  have hc := nvmfile_read16_lt cfg s (cfg.nvmfile + cfg.off_constant_offset)
  constructor
  · omega
  · intro hsmall
    omega

/-- Witness for C4: the sample image is accepted, its constant pool starts at
21 and its string table at 29, and the cached count is `(29 - 21) / 4 = 2`. -/
theorem C4_constant_count_truncated_witness :
    (nvmfile_init sample_config sample_state).1 = true ∧
    nvmfile_read16 sample_config sample_state
        (sample_config.nvmfile + sample_config.off_constant_offset) = 21 ∧
    nvmfile_read16 sample_config sample_state
        (sample_config.nvmfile + sample_config.off_string_offset) = 29 ∧
    (nvmfile_init sample_config sample_state).2.nvmfile_constant_count = 2 :=
  ⟨by decide, by decide, by decide,
    ((C4_constant_count_truncated sample_config sample_state (by decide) (by decide)).2
      (by decide)).trans (by decide)⟩

/-- Counterexample to C4 as stated: the wide-pool header is accepted and has
consistent offsets (constant pool at 21, string table at 1045), the quotient
`(1045 - 21) / 4` is 256, and the cached count is 0. -/
theorem C4_counterexample :
    (nvmfile_init sample_config wide_pool_state).1 = true ∧
    nvmfile_read16 sample_config wide_pool_state
        (sample_config.nvmfile + sample_config.off_constant_offset)
      ≤ nvmfile_read16 sample_config wide_pool_state
        (sample_config.nvmfile + sample_config.off_string_offset) ∧
    (nvmfile_read16 sample_config wide_pool_state
        (sample_config.nvmfile + sample_config.off_string_offset)
      - nvmfile_read16 sample_config wide_pool_state
        (sample_config.nvmfile + sample_config.off_constant_offset)) / 4 = 256 ∧
    (nvmfile_init sample_config wide_pool_state).2.nvmfile_constant_count = 0 ∧
    (nvmfile_init sample_config wide_pool_state).2.nvmfile_constant_count ≠
      (nvmfile_read16 sample_config wide_pool_state
          (sample_config.nvmfile + sample_config.off_string_offset)
        - nvmfile_read16 sample_config wide_pool_state
          (sample_config.nvmfile + sample_config.off_constant_offset)) / 4 := by
  decide

/-! ## C5: literal constants -/

/-- A multiple of `2 ^ n` has no bit below position `n`. -/
theorem testBit_low_of_mod (x n j : Nat) (h : x % 2 ^ n = 0) (hj : j < n) :
    x.testBit j = false := by
  have := Nat.testBit_mod_two_pow x n j
  rw [h, Nat.zero_testBit] at this
  simpa [hj] using this.symm

/-- A number below `2 ^ n` has no bit at position `n` or above. -/
theorem testBit_high_of_lt (x n j : Nat) (h : x < 2 ^ n) (hj : n ≤ j) :
    x.testBit j = false :=
  Nat.testBit_lt_two_pow (Nat.lt_of_lt_of_le h (Nat.pow_le_pow_right (by decide) hj))

/-- A tag above the low `n` bits and an index below `2 ^ n` share no bit. -/
theorem tag_index_disjoint (tag k n : Nat) (htag : tag % 2 ^ n = 0) (hk : k < 2 ^ n) (j : Nat) :
    tag.testBit j = false ∨ k.testBit j = false := by
  by_cases hj : j < n
  · exact Or.inl (testBit_low_of_mod tag n j htag hj)
  · exact Or.inr (testBit_high_of_lt k n j hk (Nat.le_of_not_lt hj))

/-- The tag is set in a tagged index. -/
theorem tagged_and_tag (tag k : Nat) : (tag ||| k) &&& tag = tag := by
  apply Nat.eq_of_testBit_eq
  intro j
  rw [Nat.testBit_and, Nat.testBit_or]
  cases tag.testBit j <;> cases k.testBit j <;> rfl

/-- Clearing the tag of a tagged index gives the index back when tag and index
share no bit. -/
theorem clear_bits_tagged (tag k : Nat)
    (hdis : ∀ j, tag.testBit j = false ∨ k.testBit j = false) :
    clear_bits (tag ||| k) tag = k := by
  unfold clear_bits
  rw [tagged_and_tag]
  apply Nat.eq_of_testBit_eq
  intro j
  rw [Nat.testBit_xor, Nat.testBit_or]
  rcases hdis j with h | h <;> rw [h] <;> cases tag.testBit j <;> cases k.testBit j <;> rfl

/-- The value `nvmfile_get_constant` returns for an index at or above the
cached count. -/
theorem nvmfile_get_constant_string (cfg : Config) (s : State) (i : Nat)
    (hi : s.nvmfile_constant_count ≤ i) :
    nvmfile_get_constant cfg s i =
      ((cfg.NVM_TYPE_CONST ||| (i - s.nvmfile_constant_count)) % 2 ^ cfg.refBits) % 2 ^ 32 := by
  unfold nvmfile_get_constant
  rw [if_neg (Nat.not_lt.2 hi)]

/-- C6: for an 8-bit index `i` at or above `nvmfile_constant_count`, with the
tag `NVM_TYPE_CONST` above the low 8 bits and representable in `nvm_ref_t` and
in the 32-bit result, `nvmfile_get_constant i` has the tag set, its
tag-stripped part is `i - nvmfile_constant_count`, and it is the same in every
state with the same cached count, whatever the image bytes are. -/
theorem C6_get_constant_string_ref (cfg : Config) (s : State) (i : Nat)
    (hi : s.nvmfile_constant_count ≤ i) (h8 : i < 256)
    (htag : cfg.NVM_TYPE_CONST % 2 ^ 8 = 0)
    (hwidth : 8 ≤ cfg.refBits)
    (hfit : cfg.NVM_TYPE_CONST < 2 ^ cfg.refBits)
    (hfit32 : cfg.NVM_TYPE_CONST < 2 ^ 32) :
    nvmfile_get_constant cfg s i &&& cfg.NVM_TYPE_CONST = cfg.NVM_TYPE_CONST ∧
    clear_bits (nvmfile_get_constant cfg s i) cfg.NVM_TYPE_CONST
      = i - s.nvmfile_constant_count ∧
    ∀ s2 : State, s2.nvmfile_constant_count = s.nvmfile_constant_count →
      nvmfile_get_constant cfg s2 i = nvmfile_get_constant cfg s i := by
  have hk : i - s.nvmfile_constant_count < 2 ^ 8 := by
    have : (2 : Nat) ^ 8 = 256 := by decide
    omega
  have hkw : i - s.nvmfile_constant_count < 2 ^ cfg.refBits :=
    Nat.lt_of_lt_of_le hk (Nat.pow_le_pow_right (by decide) hwidth)
  have hk32 : i - s.nvmfile_constant_count < 2 ^ 32 :=
    Nat.lt_of_lt_of_le hk (by decide)
  have hval : nvmfile_get_constant cfg s i
      = cfg.NVM_TYPE_CONST ||| (i - s.nvmfile_constant_count) := by
    rw [nvmfile_get_constant_string cfg s i hi,
      Nat.mod_eq_of_lt (Nat.or_lt_two_pow hfit hkw),
      Nat.mod_eq_of_lt (Nat.or_lt_two_pow hfit32 hk32)]
  refine ⟨?_, ?_, ?_⟩
  · rw [hval]
    exact tagged_and_tag _ _
  · rw [hval]
    exact clear_bits_tagged _ _ (tag_index_disjoint _ _ 8 htag hk)
  · intro s2 hcount
    rw [nvmfile_get_constant_string cfg s i hi,
      nvmfile_get_constant_string cfg s2 i (hcount ▸ hi), hcount]

/-- Witness for C6: in the sample image (count 2, tag `0xC000`, 16-bit
references) index 3 yields `0xC001`: the tag is set, the tag-stripped part is
`3 - 2 = 1`, and the value does not depend on the image bytes. -/
theorem C6_get_constant_string_ref_witness :
    sample_ready.nvmfile_constant_count ≤ 3 ∧
    nvmfile_get_constant sample_config sample_ready 3 = 0xC001 ∧
    nvmfile_get_constant sample_config sample_ready 3 &&& sample_config.NVM_TYPE_CONST
      = sample_config.NVM_TYPE_CONST ∧
    clear_bits (nvmfile_get_constant sample_config sample_ready 3) sample_config.NVM_TYPE_CONST
      = 3 - sample_ready.nvmfile_constant_count ∧
    ∀ s2 : State, s2.nvmfile_constant_count = sample_ready.nvmfile_constant_count →
      nvmfile_get_constant sample_config s2 3
        = nvmfile_get_constant sample_config sample_ready 3 :=
  ⟨by decide, by decide,
    C6_get_constant_string_ref sample_config sample_ready 3 (by decide) (by decide)
      (by decide) (by decide) (by decide) (by decide)⟩

/-! ## C7: resolving a string reference -/

/-- The test of the scan on a header id is equality with the packed pair. -/
theorem id_match_iff (mid cls id : Nat) (hid : id < 256) :
    (mid >>> 8 = cls ∧ mid &&& 0xff = id) ↔ mid = cls <<< 8 ||| id := by
  have hid8 : id < 2 ^ 8 := hid
  have hand : mid &&& 0xff = mid % 2 ^ 8 := Nat.and_pow_two_sub_one_eq_mod mid 8
  rw [Nat.shiftRight_eq_div_pow, hand, Nat.shiftLeft_eq, Nat.mul_comm cls (2 ^ 8),
    ← Nat.mul_add_lt_is_or hid8 cls]
  have h256 : (2 : Nat) ^ 8 = 256 := by decide
  rw [h256]
  omega

/-- The scan returns the first matching table index. -/
theorem fixed_class_loop_hit (cfg : Config) (s : State) (cls id j : Nat)
    (hj : j < nvmfile_read08 cfg s (cfg.nvmfile + cfg.off_methods))
    (hhit : method_hdr_id cfg s j >>> 8 = cls ∧ method_hdr_id cfg s j &&& 0xff = id) :
    ∀ fuel i, i ≤ j → j - i < fuel →
      (∀ m, i ≤ m → m < j →
        ¬ (method_hdr_id cfg s m >>> 8 = cls ∧ method_hdr_id cfg s m &&& 0xff = id)) →
      fixed_class_loop cfg s cls id fuel i = some j := by
  have hM := nvmfile_read08_lt cfg s (cfg.nvmfile + cfg.off_methods)
  intro fuel
  induction fuel with
  | zero => intro i _ hfuel; omega
  | succ fuel ih =>
    intro i hij hfuel hmin
    rw [fixed_class_loop, if_pos (Nat.lt_of_le_of_lt hij hj)]
    by_cases heq : i = j
    · subst heq
      rw [if_pos hhit]
    · have hlt : i < j := Nat.lt_of_le_of_ne hij heq
      rw [if_neg (hmin i (Nat.le_refl i) hlt)]
      have hwrap : (i + 1) % 256 = i + 1 := Nat.mod_eq_of_lt (by omega)
      rw [hwrap]
      exact ih (i + 1) hlt (by omega) (fun m hm hmj => hmin m (by omega) hmj)

/-- The scan returns the sentinel when no header matches. -/
theorem fixed_class_loop_miss (cfg : Config) (s : State) (cls id : Nat) :
    ∀ fuel i, i ≤ nvmfile_read08 cfg s (cfg.nvmfile + cfg.off_methods) →
      nvmfile_read08 cfg s (cfg.nvmfile + cfg.off_methods) - i < fuel →
      (∀ m, i ≤ m → m < nvmfile_read08 cfg s (cfg.nvmfile + cfg.off_methods) →
        ¬ (method_hdr_id cfg s m >>> 8 = cls ∧ method_hdr_id cfg s m &&& 0xff = id)) →
      fixed_class_loop cfg s cls id fuel i = some 0xff := by
  have hM := nvmfile_read08_lt cfg s (cfg.nvmfile + cfg.off_methods)
  intro fuel
  induction fuel with
  | zero => intro i _ hfuel; omega
  | succ fuel ih =>
    intro i hi hfuel hnone
    rw [fixed_class_loop]
    by_cases hlt : i < nvmfile_read08 cfg s (cfg.nvmfile + cfg.off_methods)
    · rw [if_pos hlt, if_neg (hnone i (Nat.le_refl i) hlt)]
      have hwrap : (i + 1) % 256 = i + 1 := Nat.mod_eq_of_lt (by omega)
      rw [hwrap]
      exact ih (i + 1) hlt (by omega) (fun m hm hmM => hnone m (by omega) hmM)
    · rw [if_neg hlt]

/-- The scan always returns within `method_count + 1` evaluations of its loop
condition, so the 256 evaluations the lookup grants it are enough. -/
theorem fixed_class_loop_returns (cfg : Config) (s : State) (cls id : Nat) :
    ∀ fuel i, i ≤ nvmfile_read08 cfg s (cfg.nvmfile + cfg.off_methods) →
      nvmfile_read08 cfg s (cfg.nvmfile + cfg.off_methods) - i < fuel →
      ∃ r, fixed_class_loop cfg s cls id fuel i = some r := by
  have hM := nvmfile_read08_lt cfg s (cfg.nvmfile + cfg.off_methods)
  intro fuel
  induction fuel with
  | zero => intro i _ hfuel; omega
  | succ fuel ih =>
    intro i hi hfuel
    rw [fixed_class_loop]
    by_cases hlt : i < nvmfile_read08 cfg s (cfg.nvmfile + cfg.off_methods)
    · rw [if_pos hlt]
      by_cases hp : method_hdr_id cfg s i >>> 8 = cls ∧ method_hdr_id cfg s i &&& 0xff = id
      · rw [if_pos hp]
        exact ⟨i, rfl⟩
      · have hwrap : (i + 1) % 256 = i + 1 := Nat.mod_eq_of_lt (by omega)
        rw [if_neg hp, hwrap]
        exact ih (i + 1) hlt (by omega)
    · rw [if_neg hlt]
      exact ⟨0xff, rfl⟩

/-- Following one more link from `cls` is following the links from its
superclass. -/
theorem super_chain_succ (cfg : Config) (s : State) (cls : Nat) :
    ∀ n, super_chain cfg s cls (n + 1) = super_chain cfg s (class_super cfg s cls) n := by
  intro n
  induction n with
  | zero => rfl
  | succ n ih =>
    show class_super cfg s (super_chain cfg s cls (n + 1)) = _
    rw [ih]
    rfl

/-- The lookup returns the first match of the nearest defining ancestor. -/
theorem lookup_finds (cfg : Config) (s : State) (id j : Nat) (hid : id < 256)
    (hj : j < nvmfile_read08 cfg s (cfg.nvmfile + cfg.off_methods)) :
    ∀ k cls fuel, k < fuel →
      (∀ n, n < k → ∀ m, m < nvmfile_read08 cfg s (cfg.nvmfile + cfg.off_methods) →
        method_hdr_id cfg s m ≠ super_chain cfg s cls n <<< 8 ||| id) →
      method_hdr_id cfg s j = super_chain cfg s cls k <<< 8 ||| id →
      (∀ m, m < j → method_hdr_id cfg s m ≠ super_chain cfg s cls k <<< 8 ||| id) →
      nvmfile_get_method_by_class_and_id cfg s fuel cls id = some j := by
  have hM := nvmfile_read08_lt cfg s (cfg.nvmfile + cfg.off_methods)
  intro k
  induction k with
  | zero =>
    intro cls fuel hfuel _ hhit hmin
    obtain ⟨fuel, rfl⟩ : ∃ f, fuel = f + 1 := ⟨fuel - 1, by omega⟩
    have hscan : nvmfile_get_method_by_fixed_class_and_id cfg s cls id 256 = some j :=
      fixed_class_loop_hit cfg s cls id j hj ((id_match_iff _ _ _ hid).2 hhit) 256 0
        (Nat.zero_le j) (by omega)
        (fun m _ hmj => fun hp => hmin m hmj ((id_match_iff _ _ _ hid).1 hp))
    rw [nvmfile_get_method_by_class_and_id, hscan]
    have hne : j ≠ 0xff := by omega
    simp only [hne, ne_eq, not_false_eq_true, if_true]
  | succ k ih =>
    intro cls fuel hfuel hmiss hhit hmin
    obtain ⟨fuel, rfl⟩ : ∃ f, fuel = f + 1 := ⟨fuel - 1, by omega⟩
    have hscan : nvmfile_get_method_by_fixed_class_and_id cfg s cls id 256 = some 0xff :=
      fixed_class_loop_miss cfg s cls id 256 0 (Nat.zero_le _) (by omega)
        (fun m _ hmM => fun hp =>
          hmiss 0 (Nat.succ_pos k) m hmM ((id_match_iff _ _ _ hid).1 hp))
    rw [nvmfile_get_method_by_class_and_id, hscan]
    simp only [ne_eq, not_true_eq_false, if_false]
    apply ih (class_super cfg s cls) fuel (by omega)
    · intro n hn m hm
      rw [← super_chain_succ]
      exact hmiss (n + 1) (by omega) m hm
    · rw [← super_chain_succ]
      exact hhit
    · intro m hm
      rw [← super_chain_succ]
      exact hmin m hm

/-- The lookup is still running after any number of passes when no class of
the chain defines the method. -/
theorem lookup_never_returns (cfg : Config) (s : State) (id : Nat) (hid : id < 256) :
    ∀ fuel cls,
      (∀ n m, m < nvmfile_read08 cfg s (cfg.nvmfile + cfg.off_methods) →
        method_hdr_id cfg s m ≠ super_chain cfg s cls n <<< 8 ||| id) →
      nvmfile_get_method_by_class_and_id cfg s fuel cls id = none := by
  have hM := nvmfile_read08_lt cfg s (cfg.nvmfile + cfg.off_methods)
  intro fuel
  induction fuel with
  | zero => intro cls _; rfl
  | succ fuel ih =>
    intro cls hmiss
    have hscan : nvmfile_get_method_by_fixed_class_and_id cfg s cls id 256 = some 0xff :=
      fixed_class_loop_miss cfg s cls id 256 0 (Nat.zero_le _) (by omega)
        (fun m _ hmM => fun hp => hmiss 0 m hmM ((id_match_iff _ _ _ hid).1 hp))
    rw [nvmfile_get_method_by_class_and_id, hscan]
    simp only [ne_eq, not_true_eq_false, if_false]
    apply ih
    intro n m hm
    rw [← super_chain_succ]
    exact hmiss (n + 1) m hm

/-- C8: if `k` is the first position on the superclass chain
`c0 = class, c1 = super(c0), ...` for which some method header with table
index below the method count has packed id `(ck << 8 | id)`, then
`nvmfile_get_method_by_class_and_id (class, id)` returns the lowest table
index `j` of a header with that packed id, as soon as the loop is given more
than `k` passes. -/
theorem C8_lookup_nearest_ancestor (cfg : Config) (s : State) (cls id k j fuel : Nat)
    (hid : id < 256)
    (hmiss : ∀ n, n < k → ∀ m, m < nvmfile_read08 cfg s (cfg.nvmfile + cfg.off_methods) →
      method_hdr_id cfg s m ≠ super_chain cfg s cls n <<< 8 ||| id)
    (hj : j < nvmfile_read08 cfg s (cfg.nvmfile + cfg.off_methods))
    (hhit : method_hdr_id cfg s j = super_chain cfg s cls k <<< 8 ||| id)
    (hmin : ∀ m, m < j → method_hdr_id cfg s m ≠ super_chain cfg s cls k <<< 8 ||| id)
    (hfuel : k < fuel) :
    nvmfile_get_method_by_class_and_id cfg s fuel cls id = some j :=
  lookup_finds cfg s id j hid hj k cls fuel hfuel hmiss hhit hmin

/-- Witness for C8: in the sample image the chain from leaf (2) is
2, 1, 0; neither leaf nor mid defines method id 7, root defines it at table
index 1, and resolving `(leaf, 7)` returns 1. -/
theorem C8_lookup_nearest_ancestor_witness :
    super_chain sample_config sample_ready 2 1 = 1 ∧
    super_chain sample_config sample_ready 2 2 = 0 ∧
    method_hdr_id sample_config sample_ready 1 = 0 <<< 8 ||| 7 ∧
    nvmfile_get_method_by_class_and_id sample_config sample_ready 3 2 7 = some 1 :=
  ⟨by decide, by decide, by decide,
    C8_lookup_nearest_ancestor sample_config sample_ready 2 7 2 1 3 (by decide) (by decide)
      (by decide) (by decide) (by decide) (by decide)⟩

/-- C9 at the failing input: in the sample image no class on the superclass
chain from leaf (2) has a method header with id 99, and
`nvmfile_get_method_by_class_and_id (leaf, 99)` never returns, neither a
method nor a "not found" result: whatever the number of passes allowed, its
loop is still running. -/
theorem C9_lookup_of_undefined_method_hangs :
    (∀ n m, m < nvmfile_read08 sample_config sample_ready
        (sample_config.nvmfile + sample_config.off_methods) →
      method_hdr_id sample_config sample_ready m
        ≠ super_chain sample_config sample_ready 2 n <<< 8 ||| 99) ∧
    ¬ ∃ fuel r,
      nvmfile_get_method_by_class_and_id sample_config sample_ready fuel 2 99 = some r := by
  have hnone : ∀ n m, m < nvmfile_read08 sample_config sample_ready
        (sample_config.nvmfile + sample_config.off_methods) →
      method_hdr_id sample_config sample_ready m
        ≠ super_chain sample_config sample_ready 2 n <<< 8 ||| 99 := by
    intro n m hm heq
    have hlow := ((id_match_iff _ _ 99 (by decide)).2 heq).2
    have hall : ∀ m, m < nvmfile_read08 sample_config sample_ready
          (sample_config.nvmfile + sample_config.off_methods) →
        method_hdr_id sample_config sample_ready m &&& 0xff ≠ 99 := by decide
    exact hall m hm hlow
  refine ⟨hnone, ?_⟩
  rintro ⟨fuel, r, hr⟩
  rw [lookup_never_returns sample_config sample_ready 99 (by decide) fuel 2 hnone] at hr
  cases hr

/-! ## C10: order of the `vm_run` calls of `nvmfile_call_main` -/

/-- The loop of `nvmfile_call_main` adds to the calls made so far the flagged
indices from `i` up to the method count, in ascending order. -/
theorem call_main_loop_eq (cfg : Config) (s : State) :
    ∀ fuel i calls, i ≤ nvmfile_read08 cfg s (cfg.nvmfile + cfg.off_methods) →
      nvmfile_read08 cfg s (cfg.nvmfile + cfg.off_methods) - i < fuel →
      call_main_loop cfg s fuel i calls =
        some (calls ++
          (List.range' i (nvmfile_read08 cfg s (cfg.nvmfile + cfg.off_methods) - i)).filter
            fun m => decide (nvmfile_read08 cfg s
              (nvmfile_get_method_hdr cfg s m + cfg.off_method_flags) &&& cfg.FLAG_CLINIT ≠ 0)) := by
  have hM := nvmfile_read08_lt cfg s (cfg.nvmfile + cfg.off_methods)
  intro fuel
  induction fuel with
  | zero => intro i _ _ hfuel; omega
  | succ fuel ih =>
    intro i calls hi hfuel
    rw [call_main_loop]
    by_cases hlt : i < nvmfile_read08 cfg s (cfg.nvmfile + cfg.off_methods)
    · have hwrap : (i + 1) % 256 = i + 1 := Nat.mod_eq_of_lt (by omega)
      have hlen : nvmfile_read08 cfg s (cfg.nvmfile + cfg.off_methods) - i
          = (nvmfile_read08 cfg s (cfg.nvmfile + cfg.off_methods) - (i + 1)) + 1 := by omega
      rw [if_pos hlt, hwrap, ih (i + 1) _ hlt (by omega), ih (i + 1) _ hlt (by omega), hlen,
        List.range'_succ, List.filter_cons]
      by_cases hflag : nvmfile_read08 cfg s
          (nvmfile_get_method_hdr cfg s i + cfg.off_method_flags) &&& cfg.FLAG_CLINIT ≠ 0
      · simp only [hflag, ne_eq, not_false_eq_true, if_true, decide_True, List.append_assoc,
          List.singleton_append]
      · simp only [hflag, ne_eq, if_false, decide_False, Bool.false_eq_true]
    · have hzero : nvmfile_read08 cfg s (cfg.nvmfile + cfg.off_methods) - i = 0 := by omega
      rw [if_neg hlt, hzero]
      simp only [List.range'_zero, List.filter_nil, List.append_nil]

/-- C10: with `vm_run` an external call that leaves the image alone, the
`vm_run` calls of `nvmfile_call_main` are exactly the table indices
`0 .. method_count - 1` whose flags byte has `FLAG_CLINIT` set, in ascending
order, followed by one last call on the main-method index of the header;
nothing is called after main. -/
theorem C10_call_main_sequence (cfg : Config) (s : State) (fuel : Nat)
    (hfuel : nvmfile_read08 cfg s (cfg.nvmfile + cfg.off_methods) < fuel) :
    nvmfile_call_main cfg s fuel =
      some ((List.range (nvmfile_read08 cfg s (cfg.nvmfile + cfg.off_methods))).filter
          (fun m => decide (nvmfile_read08 cfg s
            (nvmfile_get_method_hdr cfg s m + cfg.off_method_flags) &&& cfg.FLAG_CLINIT ≠ 0))
        ++ [nvmfile_read16 cfg s (cfg.nvmfile + cfg.off_main)]) := by
  unfold nvmfile_call_main
  rw [call_main_loop_eq cfg s fuel 0 [] (Nat.zero_le _) (by omega), List.range_eq_range']
  rfl

/-- Witness for C10: the sample image has static initialisers at table
indices 0, 2 and 4 and main at 5, and the calls are `[0, 2, 4, 5]`. -/
theorem C10_call_main_sequence_witness :
    nvmfile_read08 sample_config sample_ready
      (sample_config.nvmfile + sample_config.off_methods) = 6 ∧
    nvmfile_call_main sample_config sample_ready 7 = some [0, 2, 4, 5] :=
  ⟨by decide, (C10_call_main_sequence sample_config sample_ready 7 (by decide)).trans
    (by decide)⟩

/-! ## C11: capacity check of `nvmfile_store` -/

/-- C11 (as the code has it): for a request of more than `CODESIZE` bytes,
`nvmfile_store` built with `DEBUG` writes nothing, reports no error and never
returns (it stays in `for(;;)`); built without `DEBUG` it makes no check: it
returns without reporting an error after writing the `size` bytes of the
buffer to the EEPROM from address `nvmfile + index` on, which changes the
backend unless the image lives in program flash. -/
theorem C11_store_oversized (cfg : Config) (s : State) (index : Nat) (buffer : Nat → Nat)
    (size : Nat) (hsize : cfg.CODESIZE < size) :
    (cfg.DEBUG = true → nvmfile_store cfg s index buffer size = Outcome.hangs s) ∧
    (cfg.DEBUG = false →
      (nvmfile_store cfg s index buffer size).has_returned = true ∧
      (nvmfile_store cfg s index buffer size).state.errors = s.errors ∧
      (cfg.NVM_USE_FLASH_PROGRAM = false →
        ∀ k, k < size →
          byte_at (nvmfile_store cfg s index buffer size).state (cfg.nvmfile + index + k)
            = buffer k % 256) ∧
      (cfg.NVM_USE_FLASH_PROGRAM = true →
        (nvmfile_store cfg s index buffer size).state.mem = s.mem ∧
        ∀ k, k < size →
          (nvmfile_store cfg s index buffer size).state.eeprom (cfg.nvmfile + index + k)
            = buffer k % 256)) := by
  constructor
  · intro hdebug
    unfold nvmfile_store
    simp [hdebug, hsize]
  · intro hdebug
    by_cases hflash : cfg.NVM_USE_FLASH_PROGRAM = true
    · have hres : nvmfile_store cfg s index buffer size = Outcome.returned
          { s with eeprom := eeprom_write_block s.eeprom buffer (cfg.nvmfile + index) size } := by
        unfold nvmfile_store
        simp [hdebug, hflash]
      rw [hres]
      refine ⟨rfl, rfl, ?_, ?_⟩
      · intro hno
        rw [hflash] at hno
        cases hno
      · intro _
        refine ⟨rfl, ?_⟩
        intro k hk
        show eeprom_write_block s.eeprom buffer (cfg.nvmfile + index) size
          (cfg.nvmfile + index + k) = buffer k % 256
        unfold eeprom_write_block
        rw [if_pos ⟨Nat.le_add_right _ _, by omega⟩, Nat.add_sub_cancel_left]
    · have hflash2 : cfg.NVM_USE_FLASH_PROGRAM = false := by
        cases h : cfg.NVM_USE_FLASH_PROGRAM
        · rfl
        · exact absurd h hflash
      have hres : nvmfile_store cfg s index buffer size = Outcome.returned
          { s with mem := eeprom_write_block s.mem buffer (cfg.nvmfile + index) size } := by
        unfold nvmfile_store
        simp [hdebug, hflash2]
      rw [hres]
      refine ⟨rfl, rfl, ?_, ?_⟩
      · intro _ k hk
        show eeprom_write_block s.mem buffer (cfg.nvmfile + index) size
          (cfg.nvmfile + index + k) % 256 = buffer k % 256
        unfold eeprom_write_block
        rw [if_pos ⟨Nat.le_add_right _ _, by omega⟩, Nat.add_sub_cancel_left, Nat.mod_mod]
      · intro hyes
        rw [hflash2] at hyes
        cases hyes

/-- Witness for C11: with `CODESIZE = 512` a request of 513 bytes hangs in the
`DEBUG` build and, in the build without `DEBUG`, returns after overwriting the
first byte of the image with the first byte of the buffer. -/
theorem C11_store_oversized_witness :
    sample_config.CODESIZE < 513 ∧
    (nvmfile_store sample_config_debug sample_state 0 filled_buffer 513).has_returned = false ∧
    (nvmfile_store sample_config sample_state 0 filled_buffer 513).has_returned = true ∧
    byte_at (nvmfile_store sample_config sample_state 0 filled_buffer 513).state
      (sample_config.nvmfile + 0 + 0) = 0xAA :=
  ⟨by decide, by decide,
    ((C11_store_oversized sample_config sample_state 0 filled_buffer 513 (by decide)).2 rfl).1,
    (((C11_store_oversized sample_config sample_state 0 filled_buffer 513 (by decide)).2
      rfl).2.2.1 rfl 0 (by decide)).trans (by decide)⟩

/-- Counterexample to C11 as stated: in the build without `DEBUG` and with
the image in EEPROM, a request of 513 bytes with `CODESIZE = 512` is not
rejected: the routine returns, no error has been reported, and the first byte
of the backend has changed from `0x01` to `0xAA`. -/
theorem C11_counterexample :
    sample_config.CODESIZE < 513 ∧
    (nvmfile_store sample_config sample_state 0 filled_buffer 513).has_returned = true ∧
    (nvmfile_store sample_config sample_state 0 filled_buffer 513).state.errors = [] ∧
    byte_at sample_state 64 = 0x01 ∧
    byte_at (nvmfile_store sample_config sample_state 0 filled_buffer 513).state 64 = 0xAA := by
  decide

/-! ## C12 and C13: single-byte writes -/

/-- C12: in the byte-writable (EEPROM) variant, `nvmfile_write08 (a, v)`
followed by `nvmfile_read08 (a)` returns the byte `v`. -/
theorem C12_write08_then_read08 (cfg : Config) (s : State) (a v : Nat)
    (hflash : cfg.NVM_USE_FLASH_PROGRAM = false) (hv : v < 256) :
    nvmfile_read08 cfg (nvmfile_write08 cfg s a v) a = v := by
  unfold nvmfile_write08
  simp only [hflash, Bool.false_eq_true, if_false]
  unfold nvmfile_read08 byte_at eeprom_write_byte
  simp only [if_true]
  rw [Nat.mod_mod, Nat.mod_eq_of_lt hv]

/-- Witness for C12: writing `0x55` to the version byte of the sample image
and reading it back gives `0x55`. -/
theorem C12_write08_then_read08_witness :
    sample_config.NVM_USE_FLASH_PROGRAM = false ∧
    nvmfile_read08 sample_config sample_state 68 = 0x02 ∧
    nvmfile_read08 sample_config (nvmfile_write08 sample_config sample_state 68 0x55) 68
      = 0x55 :=
  ⟨rfl, by decide,
    C12_write08_then_read08 sample_config sample_state 68 0x55 rfl (by decide)⟩

/-- C13: in the read-only (flash) variant `nvmfile_write08 (a, v)` leaves the
state as it is, so every `nvmfile_read`, `nvmfile_read08`, `nvmfile_read16`
and `nvmfile_read32` afterwards returns what it returned before. -/
theorem C13_write08_flash_no_effect (cfg : Config) (s : State) (a v : Nat)
    (hflash : cfg.NVM_USE_FLASH_PROGRAM = true) :
    nvmfile_write08 cfg s a v = s ∧
    (∀ b len, nvmfile_read cfg (nvmfile_write08 cfg s a v) b len = nvmfile_read cfg s b len) ∧
    (∀ b, nvmfile_read08 cfg (nvmfile_write08 cfg s a v) b = nvmfile_read08 cfg s b) ∧
    (∀ b, nvmfile_read16 cfg (nvmfile_write08 cfg s a v) b = nvmfile_read16 cfg s b) ∧
    (∀ b, nvmfile_read32 cfg (nvmfile_write08 cfg s a v) b = nvmfile_read32 cfg s b) := by
  have hsame : nvmfile_write08 cfg s a v = s := by
    unfold nvmfile_write08
    rw [if_pos hflash]
  rw [hsame]
  exact ⟨rfl, fun _ _ => rfl, fun _ => rfl, fun _ => rfl, fun _ => rfl⟩

/-- Witness for C13: with the sample image in flash, writing `0x55` to the
version byte changes nothing: the version byte still reads `0x02`. -/
theorem C13_write08_flash_no_effect_witness :
    sample_config_flash.NVM_USE_FLASH_PROGRAM = true ∧
    nvmfile_read08 sample_config_flash
      (nvmfile_write08 sample_config_flash sample_state 68 0x55) 68 = 0x02 :=
  ⟨rfl, ((C13_write08_flash_no_effect sample_config_flash sample_state 68 0x55 rfl).2.2.1
    68).trans (by decide)⟩

/-! ## C14: calling `nvmfile_init` again -/

/-- The state after `nvmfile_init`: the image and the EEPROM are untouched,
the error log grows by what the call reports, and the count changes only when
the call succeeds. -/
theorem nvmfile_init_cases (cfg : Config) (s : State) :
    nvmfile_init cfg s = (false, error s Error.ERROR_NVMFILE_MAGIC) ∨
    nvmfile_init cfg s = (false, error s Error.ERROR_NVMFILE_VERSION) ∨
    nvmfile_init cfg s =
      (true, { s with nvmfile_constant_count :=
        ((nvmfile_read16 cfg s (cfg.nvmfile + cfg.off_string_offset) + 65536
          - nvmfile_read16 cfg s (cfg.nvmfile + cfg.off_constant_offset)) % 65536 / 4) % 256 }) := by
  cases hf : feature_accepted (nvmfile_read32 cfg s (cfg.nvmfile + cfg.off_magic_feature))
      cfg.NVM_MAGIC_FEAUTURE cfg.NVMFILE_MAGIC
  · exact Or.inl (nvmfile_init_magic cfg s hf)
  · by_cases hv : nvmfile_read08 cfg s (cfg.nvmfile + cfg.off_version) = cfg.NVMFILE_VERSION
    · exact Or.inr (Or.inr (nvmfile_init_ok cfg s hf hv))
    · exact Or.inr (Or.inl (nvmfile_init_version cfg s hf hv))

/-- The outcome of `nvmfile_init` is decided by the image alone. -/
theorem nvmfile_init_congr (cfg : Config) (s s2 : State) (hmem : s2.mem = s.mem) :
    (nvmfile_init cfg s2).1 = (nvmfile_init cfg s).1 ∧
    (nvmfile_init cfg s2).2.nvmfile_constant_count
      = (if (nvmfile_init cfg s).1 then (nvmfile_init cfg s).2.nvmfile_constant_count
          else s2.nvmfile_constant_count) ∧
    ∀ rep, (nvmfile_init cfg s).2.errors = s.errors ++ rep →
      (nvmfile_init cfg s2).2.errors = s2.errors ++ rep := by
  have h32 : ∀ a, nvmfile_read32 cfg s2 a = nvmfile_read32 cfg s a := by
    intro a
    simp only [nvmfile_read32, byte_at, hmem]
  have h16 : ∀ a, nvmfile_read16 cfg s2 a = nvmfile_read16 cfg s a := by
    intro a
    simp only [nvmfile_read16, byte_at, hmem]
  have h08 : ∀ a, nvmfile_read08 cfg s2 a = nvmfile_read08 cfg s a := by
    intro a
    simp only [nvmfile_read08, byte_at, hmem]
  cases hf : feature_accepted (nvmfile_read32 cfg s (cfg.nvmfile + cfg.off_magic_feature))
      cfg.NVM_MAGIC_FEAUTURE cfg.NVMFILE_MAGIC
  · rw [nvmfile_init_magic cfg s hf, nvmfile_init_magic cfg s2 (by rw [h32]; exact hf)]
    refine ⟨rfl, rfl, ?_⟩
    intro rep hrep
    have : rep = [Error.ERROR_NVMFILE_MAGIC] := List.append_cancel_left hrep.symm
    rw [this]
    rfl
  · by_cases hv : nvmfile_read08 cfg s (cfg.nvmfile + cfg.off_version) = cfg.NVMFILE_VERSION
    · rw [nvmfile_init_ok cfg s hf hv,
        nvmfile_init_ok cfg s2 (by rw [h32]; exact hf) (by rw [h08]; exact hv)]
      refine ⟨rfl, ?_, ?_⟩
      · simp only [if_true, h16]
      · intro rep hrep
        have : rep = [] := List.append_cancel_left (hrep.symm.trans (List.append_nil _).symm)
        rw [this, List.append_nil]
    · rw [nvmfile_init_version cfg s hf hv,
        nvmfile_init_version cfg s2 (by rw [h32]; exact hf) (by rw [h08]; exact hv)]
      refine ⟨rfl, rfl, ?_⟩
      intro rep hrep
      have : rep = [Error.ERROR_NVMFILE_VERSION] := List.append_cancel_left hrep.symm
      rw [this]
      rfl

/-- `nvmfile_init` leaves the image as it is. -/
theorem nvmfile_init_mem (cfg : Config) (s : State) : (nvmfile_init cfg s).2.mem = s.mem := by
  rcases nvmfile_init_cases cfg s with h | h | h <;> rw [h] <;> rfl

/-- C14: `nvmfile_init` called a second time returns the same boolean as the
first call, reports the same error (or none) as the first call did, and
leaves `nvmfile_constant_count` as it was after the first call; the image is
the same throughout. -/
theorem C14_nvmfile_init_idempotent (cfg : Config) (s : State) :
    (nvmfile_init cfg (nvmfile_init cfg s).2).1 = (nvmfile_init cfg s).1 ∧
    (∃ rep, (nvmfile_init cfg s).2.errors = s.errors ++ rep ∧
      (nvmfile_init cfg (nvmfile_init cfg s).2).2.errors
        = (nvmfile_init cfg s).2.errors ++ rep) ∧
    (nvmfile_init cfg (nvmfile_init cfg s).2).2.nvmfile_constant_count
      = (nvmfile_init cfg s).2.nvmfile_constant_count ∧
    (nvmfile_init cfg (nvmfile_init cfg s).2).2.mem = s.mem := by
  obtain ⟨hres, hcount, herr⟩ :=
    nvmfile_init_congr cfg s (nvmfile_init cfg s).2 (nvmfile_init_mem cfg s)
  refine ⟨hres, ?_, ?_, ?_⟩
  · have hrep : ∃ rep, (nvmfile_init cfg s).2.errors = s.errors ++ rep := by
      rcases nvmfile_init_cases cfg s with h | h | h <;> rw [h]
      · exact ⟨[Error.ERROR_NVMFILE_MAGIC], rfl⟩
      · exact ⟨[Error.ERROR_NVMFILE_VERSION], rfl⟩
      · exact ⟨[], (List.append_nil _).symm⟩
    obtain ⟨rep, hrep⟩ := hrep
    exact ⟨rep, hrep, herr rep hrep⟩
  · rw [hcount]
    cases (nvmfile_init cfg s).1 <;> rfl
  · rw [nvmfile_init_mem, nvmfile_init_mem]

/-! ## C15: the address marker -/

/-- Bit `j` of `clear_bits x mask`. -/
theorem testBit_clear_bits (x mask j : Nat) :
    (clear_bits x mask).testBit j = (x.testBit j && !mask.testBit j) := by
  unfold clear_bits
  rw [Nat.testBit_xor, Nat.testBit_and]
  cases x.testBit j <;> cases mask.testBit j <;> rfl

/-- Clearing the mask after setting it is clearing it. -/
theorem clear_bits_or (x mask : Nat) : clear_bits (x ||| mask) mask = clear_bits x mask := by
  apply Nat.eq_of_testBit_eq
  intro j
  rw [testBit_clear_bits, testBit_clear_bits, Nat.testBit_or]
  cases x.testBit j <;> cases mask.testBit j <;> rfl

/-- Clearing the mask twice is clearing it once. -/
theorem clear_bits_idem (x mask : Nat) :
    clear_bits (clear_bits x mask) mask = clear_bits x mask := by
  apply Nat.eq_of_testBit_eq
  intro j
  rw [testBit_clear_bits, testBit_clear_bits]
  cases x.testBit j <;> cases mask.testBit j <;> rfl

/-- An address with the marker set and the same address with the marker
cleared denote the same physical address. -/
theorem NVMFILE_ADDR_marked (cfg : Config) (a : Nat) :
    NVMFILE_ADDR cfg (a ||| cfg.NVMFILE_FLAG)
      = NVMFILE_ADDR cfg (clear_bits a cfg.NVMFILE_FLAG) := by
  unfold NVMFILE_ADDR
  rw [clear_bits_or, clear_bits_idem]

/-- C15: `nvmfile_read`, `nvmfile_read08`, `nvmfile_read16` and
`nvmfile_read32` return the same bytes for an address with the marker set as
for that address with the marker cleared, and `nvmfile_write08` at the marked
address gives the same state as at the unmarked address. -/
theorem C15_marker_stripped (cfg : Config) (s : State) (a len v : Nat) :
    nvmfile_read cfg s (a ||| cfg.NVMFILE_FLAG) len
      = nvmfile_read cfg s (clear_bits a cfg.NVMFILE_FLAG) len ∧
    nvmfile_read08 cfg s (a ||| cfg.NVMFILE_FLAG)
      = nvmfile_read08 cfg s (clear_bits a cfg.NVMFILE_FLAG) ∧
    nvmfile_read16 cfg s (a ||| cfg.NVMFILE_FLAG)
      = nvmfile_read16 cfg s (clear_bits a cfg.NVMFILE_FLAG) ∧
    nvmfile_read32 cfg s (a ||| cfg.NVMFILE_FLAG)
      = nvmfile_read32 cfg s (clear_bits a cfg.NVMFILE_FLAG) ∧
    nvmfile_write08 cfg s (a ||| cfg.NVMFILE_FLAG) v
      = nvmfile_write08 cfg s (clear_bits a cfg.NVMFILE_FLAG) v := by
  have h := NVMFILE_ADDR_marked cfg a
  refine ⟨?_, ?_, ?_, ?_, ?_⟩
  · unfold nvmfile_read
    rw [h]
  · unfold nvmfile_read08
    rw [h]
  · unfold nvmfile_read16
    rw [h]
  · unfold nvmfile_read32
    rw [h]
  · unfold nvmfile_write08
    rw [h]

/-! ## C16 and C17: the scan of one class -/

/-- When some header below the method count matches, there is a first one. -/
theorem first_match (cfg : Config) (s : State) (cls id : Nat)
    (h : ∃ m, m < nvmfile_read08 cfg s (cfg.nvmfile + cfg.off_methods) ∧
      (method_hdr_id cfg s m >>> 8 = cls ∧ method_hdr_id cfg s m &&& 0xff = id)) :
    ∃ j, j < nvmfile_read08 cfg s (cfg.nvmfile + cfg.off_methods) ∧
      (method_hdr_id cfg s j >>> 8 = cls ∧ method_hdr_id cfg s j &&& 0xff = id) ∧
      ∀ m, m < j →
        ¬ (method_hdr_id cfg s m >>> 8 = cls ∧ method_hdr_id cfg s m &&& 0xff = id) := by
  refine ⟨Nat.find h, (Nat.find_spec h).1, (Nat.find_spec h).2, ?_⟩
  intro m hm hp
  exact Nat.find_min h hm ⟨Nat.lt_trans hm (Nat.find_spec h).1, hp⟩

/-- The scan reads nothing but the method count and the ids of the method
headers below it. -/
theorem fixed_class_loop_congr (cfg : Config) (s s2 : State) (cls id : Nat)
    (hcount : nvmfile_read08 cfg s2 (cfg.nvmfile + cfg.off_methods)
      = nvmfile_read08 cfg s (cfg.nvmfile + cfg.off_methods))
    (hids : ∀ j, j < nvmfile_read08 cfg s (cfg.nvmfile + cfg.off_methods) →
      method_hdr_id cfg s2 j = method_hdr_id cfg s j) :
    ∀ fuel i, fixed_class_loop cfg s2 cls id fuel i = fixed_class_loop cfg s cls id fuel i := by
  intro fuel
  induction fuel with
  | zero => intro i; rfl
  | succ fuel ih =>
    intro i
    rw [fixed_class_loop, fixed_class_loop, hcount]
    by_cases hlt : i < nvmfile_read08 cfg s (cfg.nvmfile + cfg.off_methods)
    · rw [if_pos hlt, if_pos hlt, hids i hlt, ih]
    · rw [if_neg hlt, if_neg hlt]

/-- C16: given more loop-condition evaluations than there are methods,
`nvmfile_get_method_by_fixed_class_and_id (class, id)` returns the lowest
table index below the method count whose header id has high byte `class` and
low byte `id` when there is one, returns the sentinel `0xff` if and only if
no header below the method count matches, and reads nothing but the method
count and the header ids, so no superclass link is consulted. -/
theorem C16_fixed_class_scan (cfg : Config) (s : State) (cls id fuel : Nat)
    (hfuel : nvmfile_read08 cfg s (cfg.nvmfile + cfg.off_methods) < fuel) :
    (∀ j, j < nvmfile_read08 cfg s (cfg.nvmfile + cfg.off_methods) →
      (method_hdr_id cfg s j >>> 8 = cls ∧ method_hdr_id cfg s j &&& 0xff = id) →
      (∀ m, m < j →
        ¬ (method_hdr_id cfg s m >>> 8 = cls ∧ method_hdr_id cfg s m &&& 0xff = id)) →
      nvmfile_get_method_by_fixed_class_and_id cfg s cls id fuel = some j) ∧
    (nvmfile_get_method_by_fixed_class_and_id cfg s cls id fuel = some 0xff ↔
      ∀ m, m < nvmfile_read08 cfg s (cfg.nvmfile + cfg.off_methods) →
        ¬ (method_hdr_id cfg s m >>> 8 = cls ∧ method_hdr_id cfg s m &&& 0xff = id)) ∧
    (∀ s2 : State,
      nvmfile_read08 cfg s2 (cfg.nvmfile + cfg.off_methods)
        = nvmfile_read08 cfg s (cfg.nvmfile + cfg.off_methods) →
      (∀ j, j < nvmfile_read08 cfg s (cfg.nvmfile + cfg.off_methods) →
        method_hdr_id cfg s2 j = method_hdr_id cfg s j) →
      nvmfile_get_method_by_fixed_class_and_id cfg s2 cls id fuel
        = nvmfile_get_method_by_fixed_class_and_id cfg s cls id fuel) := by
  have hM := nvmfile_read08_lt cfg s (cfg.nvmfile + cfg.off_methods)
  have hhit : ∀ j, j < nvmfile_read08 cfg s (cfg.nvmfile + cfg.off_methods) →
      (method_hdr_id cfg s j >>> 8 = cls ∧ method_hdr_id cfg s j &&& 0xff = id) →
      (∀ m, m < j →
        ¬ (method_hdr_id cfg s m >>> 8 = cls ∧ method_hdr_id cfg s m &&& 0xff = id)) →
      nvmfile_get_method_by_fixed_class_and_id cfg s cls id fuel = some j := by
    intro j hj hp hmin
    exact fixed_class_loop_hit cfg s cls id j hj hp fuel 0 (Nat.zero_le j) (by omega)
      (fun m _ hmj => hmin m hmj)
  refine ⟨hhit, ?_, ?_⟩
  · constructor
    · intro hres m hm hp
      obtain ⟨j, hj, hpj, hmin⟩ := first_match cfg s cls id ⟨m, hm, hp⟩
      rw [hhit j hj hpj hmin] at hres
      have : j = 0xff := Option.some.inj hres
      omega
    · intro hnone
      exact fixed_class_loop_miss cfg s cls id fuel 0 (Nat.zero_le _) (by omega)
        (fun m _ hmM => hnone m hmM)
  · intro s2 hcount hids
    exact fixed_class_loop_congr cfg s s2 cls id hcount hids fuel 0

/-- Witness for C16: in the sample image (six methods) the scan of root (0)
for id 7 returns table index 1. -/
theorem C16_fixed_class_scan_witness :
    nvmfile_read08 sample_config sample_ready
      (sample_config.nvmfile + sample_config.off_methods) < 7 ∧
    nvmfile_get_method_by_fixed_class_and_id sample_config sample_ready 2 7 7 = some 0xff ∧
    nvmfile_get_method_by_fixed_class_and_id sample_config sample_ready 0 7 7 = some 1 :=
  ⟨by decide, by decide,
    (C16_fixed_class_scan sample_config sample_ready 0 7 7 (by decide)).1 1
      (by decide) (by decide) (by decide)⟩

/-- C17: the method count is at most 255, and the scan of one class returns
within `method_count + 1` evaluations of its loop condition, that is after at
most `method_count` iterations: either the sentinel `0xff`, when no header
matches, or the index of a matching header, which is below the method count,
at most 254 and so different from the sentinel. -/
theorem C17_fixed_class_scan_terminates (cfg : Config) (s : State) (cls id extra : Nat) :
    nvmfile_read08 cfg s (cfg.nvmfile + cfg.off_methods) ≤ 255 ∧
    ∃ r, nvmfile_get_method_by_fixed_class_and_id cfg s cls id
        (nvmfile_read08 cfg s (cfg.nvmfile + cfg.off_methods) + 1 + extra) = some r ∧
      ((r = 0xff ∧ ∀ m, m < nvmfile_read08 cfg s (cfg.nvmfile + cfg.off_methods) →
          ¬ (method_hdr_id cfg s m >>> 8 = cls ∧ method_hdr_id cfg s m &&& 0xff = id)) ∨
        (r < nvmfile_read08 cfg s (cfg.nvmfile + cfg.off_methods) ∧ r ≤ 254 ∧ r ≠ 0xff ∧
          (method_hdr_id cfg s r >>> 8 = cls ∧ method_hdr_id cfg s r &&& 0xff = id))) := by
  have hM := nvmfile_read08_lt cfg s (cfg.nvmfile + cfg.off_methods)
  refine ⟨by omega, ?_⟩
  by_cases h : ∃ m, m < nvmfile_read08 cfg s (cfg.nvmfile + cfg.off_methods) ∧
      (method_hdr_id cfg s m >>> 8 = cls ∧ method_hdr_id cfg s m &&& 0xff = id)
  · obtain ⟨j, hj, hpj, hmin⟩ := first_match cfg s cls id h
    refine ⟨j, ?_, Or.inr ⟨hj, by omega, by omega, hpj⟩⟩
    exact fixed_class_loop_hit cfg s cls id j hj hpj _ 0 (Nat.zero_le j) (by omega)
      (fun m _ hmj => hmin m hmj)
  · have hnone : ∀ m, m < nvmfile_read08 cfg s (cfg.nvmfile + cfg.off_methods) →
        ¬ (method_hdr_id cfg s m >>> 8 = cls ∧ method_hdr_id cfg s m &&& 0xff = id) :=
      fun m hm hp => h ⟨m, hm, hp⟩
    refine ⟨0xff, ?_, Or.inl ⟨rfl, hnone⟩⟩
    exact fixed_class_loop_miss cfg s cls id _ 0 (Nat.zero_le _) (by omega)
      (fun m _ hmM => hnone m hmM)

/-! ## C18 and C19: what `nvmfile_init` caches -/

/-- C18: for an accepted header, with no assumption on the offsets, the
cached count is `(((string_offset - constant_offset) mod 2^16) / 4) mod 2^8`,
the difference being taken in the integers. -/
theorem C18_constant_count_wraps (cfg : Config) (s : State)
    (hacc : (nvmfile_init cfg s).1 = true) :
    ((nvmfile_init cfg s).2.nvmfile_constant_count : Int) =
      (((nvmfile_read16 cfg s (cfg.nvmfile + cfg.off_string_offset) : Int)
        - (nvmfile_read16 cfg s (cfg.nvmfile + cfg.off_constant_offset) : Int)) % 2 ^ 16 / 4)
        % 2 ^ 8 := by
  rw [nvmfile_init_count cfg s hacc]
  have hs := nvmfile_read16_lt cfg s (cfg.nvmfile + cfg.off_string_offset)
  have hc := nvmfile_read16_lt cfg s (cfg.nvmfile + cfg.off_constant_offset)
  have h16 : (2 : Int) ^ 16 = 65536 := by norm_num
  have h8 : (2 : Int) ^ 8 = 256 := by norm_num
  rw [h16, h8]
  omega

/-- Witness for C18: the swapped-pool header (string table at 21, constant
pool at 29) is accepted and the cached count is
`((21 - 29) mod 65536) / 4 mod 256 = 254`. -/
theorem C18_constant_count_wraps_witness :
    (nvmfile_init sample_config swapped_pool_state).1 = true ∧
    nvmfile_read16 sample_config swapped_pool_state
      (sample_config.nvmfile + sample_config.off_string_offset) = 21 ∧
    nvmfile_read16 sample_config swapped_pool_state
      (sample_config.nvmfile + sample_config.off_constant_offset) = 29 ∧
    (nvmfile_init sample_config swapped_pool_state).2.nvmfile_constant_count = 254 ∧
    ((nvmfile_init sample_config swapped_pool_state).2.nvmfile_constant_count : Int) =
      (((nvmfile_read16 sample_config swapped_pool_state
            (sample_config.nvmfile + sample_config.off_string_offset) : Int)
        - (nvmfile_read16 sample_config swapped_pool_state
            (sample_config.nvmfile + sample_config.off_constant_offset) : Int)) % 2 ^ 16 / 4)
        % 2 ^ 8 :=
  ⟨by decide, by decide, by decide, by decide,
    C18_constant_count_wraps sample_config swapped_pool_state (by decide)⟩

/-- C19: `nvmfile_init` never modifies the image, and when it returns FALSE
`nvmfile_constant_count` keeps the value it had before the call. -/
theorem C19_nvmfile_init_frame (cfg : Config) (s : State) :
    (nvmfile_init cfg s).2.mem = s.mem ∧
    (nvmfile_init cfg s).2.eeprom = s.eeprom ∧
    ((nvmfile_init cfg s).1 = false →
      (nvmfile_init cfg s).2.nvmfile_constant_count = s.nvmfile_constant_count) := by
  rcases nvmfile_init_cases cfg s with h | h | h <;> rw [h]
  · exact ⟨rfl, rfl, fun _ => rfl⟩
  · exact ⟨rfl, rfl, fun _ => rfl⟩
  · refine ⟨rfl, rfl, ?_⟩
    intro hfalse
    cases hfalse

/-! ## C20: what a single-byte write leaves alone -/

/-- C20 (as the code has it): `nvmfile_write08 (a, v)` changes only the
addressed byte: for every address `b` whose marker-stripped form differs from
the marker-stripped `a`, `nvmfile_read08 (b)` returns the same value after
the write as before, and `nvmfile_constant_count` is unchanged. -/
theorem C20_write08_frame (cfg : Config) (s : State) (a v b : Nat)
    (hb : NVMFILE_ADDR cfg b ≠ NVMFILE_ADDR cfg a) :
    nvmfile_read08 cfg (nvmfile_write08 cfg s a v) b = nvmfile_read08 cfg s b ∧
    (nvmfile_write08 cfg s a v).nvmfile_constant_count = s.nvmfile_constant_count := by
  unfold nvmfile_write08
  cases cfg.NVM_USE_FLASH_PROGRAM
  · simp only [Bool.false_eq_true, if_false]
    refine ⟨?_, rfl⟩
    unfold nvmfile_read08 byte_at eeprom_write_byte
    simp only [if_neg hb]
  · exact ⟨rfl, rfl⟩

/-- Witness for C20: in the sample image, writing `0x55` to the version byte
(address 68) leaves the first byte of the feature word (address 64) at
`0x01`. -/
theorem C20_write08_frame_witness :
    NVMFILE_ADDR sample_config 64 ≠ NVMFILE_ADDR sample_config 68 ∧
    nvmfile_read08 sample_config (nvmfile_write08 sample_config sample_state 68 0x55) 64
      = 0x01 :=
  ⟨by decide,
    ((C20_write08_frame sample_config sample_state 68 0x55 64 (by decide)).1).trans
      (by decide)⟩

/-- Counterexample to C20 as stated: with the marker `0x8000` the address
`0x8044` differs from the marker-stripped address 68 of the write, yet it
denotes the same byte, so `nvmfile_read08 (0x8044)` returns `0x02` before
`nvmfile_write08 (68, 0x55)` and `0x55` after it. -/
theorem C20_counterexample :
    sample_config.NVM_USE_FLASH_PROGRAM = false ∧
    0x8044 ≠ NVMFILE_ADDR sample_config 68 ∧
    nvmfile_read08 sample_config sample_state 0x8044 = 0x02 ∧
    nvmfile_read08 sample_config (nvmfile_write08 sample_config sample_state 68 0x55) 0x8044
      = 0x55 := by
  decide

end NanoVM
